import Mathlib

/-!
Shallow embedding of the core of `api_servers.py` and `utils.py` of the
Feishu_api repository: the retrying request-execution pipeline
(`_send_with_retries`), the response-envelope check
(`_check_error_response`), tenant-token acquisition
(`_authorize_tenant_access_token`), the message-endpoint call path
(`MessageApiClient.send`), and the dict/object conversion helpers
(`dict_2_obj`, `obj_2_dict`).

Machine integers do not occur; HTTP status codes are natural numbers and
envelope codes are mathematical integers, matching the unbounded Python
`int`.  Exceptions are modelled as explicit outcome constructors.
-/

namespace FeishuApi

/-- The decoded JSON body of an HTTP response, as the pipeline reads it:
`resp.json()` yields a dictionary from which the code reads the fields
`code` (via `.get("code", -1)`), `msg`, `tenant_access_token`, and — for
the spec-modelled user-token flow — the oauth token-exchange fields.
`payload` stands for the remaining content of the body, carried opaquely
so that "returns the full decoded JSON body" is expressible. -/
structure JsonBody where
  code : Option Int
  msg : Option String
  tenant_access_token : Option String
  access_token : Option String
  refresh_token : Option String
  expires_in : Option Int
  refresh_token_expires_in : Option Int
  payload : String
deriving DecidableEq, Repr

/-- What one call of `method(*args, **kwargs)` inside `_send_with_retries`
does: either the transport raises a connection-level failure (a
`requests` exception that is NOT an `HTTPError`, e.g. `ConnectionError`),
or a response arrives with an HTTP status and a body that either parses
as JSON (`some`) or does not (`none`, in which case `resp.json()`
raises a JSON decode error). -/
inductive AttemptResult where
  | connFail : AttemptResult
  | httpResp : Nat → Option JsonBody → AttemptResult
deriving DecidableEq, Repr

/-- The outcome of `_check_error_response`: it either returns normally
(`ok`), or raises the JSON decode error from `resp.json()`
(`jsonDecodeError`), or raises `HTTPError` from `resp.raise_for_status()`
(`httpError`, carrying the status), or raises `LarkException(code, msg)`
(`larkError`). -/
inductive CheckResult where
  | ok : CheckResult
  | jsonDecodeError : CheckResult
  | httpError : Nat → CheckResult
  | larkError : Int → Option String → CheckResult
deriving DecidableEq, Repr

/-- `requests.Response.raise_for_status` raises `HTTPError` exactly for
client-error (400–499) and server-error (500–599) status codes. -/
def raisesForStatus (status : Nat) : Bool :=
  400 ≤ status && status < 600

/-- `ApiClient._check_error_response`, lines 92–100 of `api_servers.py`:

  response_dict = resp.json()            -- raises if the body is not JSON
  code = response_dict.get("code", -1)
  if code != 0:
      if code == -1:
          resp.raise_for_status()        -- raises only for status 400–599
      raise LarkException(code=code, msg=response_dict.get("msg"))

Note that when `code == -1` and `raise_for_status()` does not raise
(e.g. a 2xx status), control falls through to the `raise LarkException`
line: the check never returns normally when `code != 0`. -/
def check_error_response (status : Nat) (body : Option JsonBody) : CheckResult :=
  match body with
  | none => .jsonDecodeError
  | some b =>
    let code := b.code.getD (-1)
    if code ≠ 0 then
      if code = -1 then
        if raisesForStatus status then .httpError status
        else .larkError code b.msg
      else .larkError code b.msg
    else .ok

/-- How a call of `_send_with_retries` terminates: a normal return of the
decoded body (`success`), the implicit `return None` when the `for` loop
body never runs (`noneReturn`), or a propagated exception:
`LarkException` (`raiseLark`), `HTTPError` (`raiseHttp`, carrying the
status of the attempt that raised it), a connection-level transport
exception (`raiseConn`, caught by neither `except` clause), or a JSON
decode error (`raiseJson`, also caught by neither clause). -/
inductive SendOutcome where
  | success : JsonBody → SendOutcome
  | noneReturn : SendOutcome
  | raiseLark : Int → Option String → SendOutcome
  | raiseHttp : Nat → SendOutcome
  | raiseConn : SendOutcome
  | raiseJson : SendOutcome
deriving DecidableEq, Repr

/-- The observable effect of one call of `_send_with_retries`: how it
terminated, how many HTTP attempts (`method(...)` calls) were made, and
the list of `time.sleep` durations performed, in order. -/
structure SendResult where
  outcome : SendOutcome
  attempts : Nat
  sleeps : List Int
deriving DecidableEq, Repr

/-- The loop body of `_send_with_retries` (lines 51–72 of
`api_servers.py`), starting at iteration `attempt` with `fuel` loop
iterations remaining (`fuel = max_retries.toNat - attempt` at every
call).  Per iteration:

  resp = method(...)                     -- may raise a connection error
  self._check_error_response(resp)       -- may raise, see above
  return resp.json()
  except LarkException: raise            -- no retry, no sleep
  except HTTPError:
      if attempt < self._max_retries - 1: time.sleep(self._retry_delay)
      else: raise

A connection-level exception and a JSON decode error match neither
`except` clause and propagate out of the loop immediately. -/
def sendFrom (maxRetries retry_delay : Int) (f : Nat → AttemptResult) :
    Nat → Nat → SendResult
  | _, 0 => ⟨.noneReturn, 0, []⟩
  | attempt, fuel + 1 =>
    match f attempt with
    | .connFail => ⟨.raiseConn, 1, []⟩
    | .httpResp status body =>
      match check_error_response status body, body with
      | .ok, some b => ⟨.success b, 1, []⟩
      | .ok, none => ⟨.raiseJson, 1, []⟩
      | .jsonDecodeError, _ => ⟨.raiseJson, 1, []⟩
      | .larkError c m, _ => ⟨.raiseLark c m, 1, []⟩
      | .httpError s, _ =>
        if (attempt : Int) < maxRetries - 1 then
          let r := sendFrom maxRetries retry_delay f (attempt + 1) fuel
          ⟨r.outcome, r.attempts + 1, retry_delay :: r.sleeps⟩
        else ⟨.raiseHttp s, 1, []⟩

/-- `ApiClient._send_with_retries`: `for attempt in range(self._max_retries)`
with the loop body of `sendFrom`; `f` gives the transport outcome of each
attempt.  `range(n)` of a non-positive `n` is empty, hence the
`Int.toNat` fuel. -/
def send_with_retries (maxRetries retry_delay : Int) (f : Nat → AttemptResult) :
    SendResult :=
  sendFrom maxRetries retry_delay f 0 maxRetries.toNat

/-- The mutable per-client credential state the claims touch:
`self._tenant_access_token`.  It is initialised to `""`
(`some ""` here); after a successful acquisition it holds the result of
`response.json().get("tenant_access_token")`, which is `none` when the
field is absent. -/
structure ClientState where
  tenant_access_token : Option String
deriving DecidableEq, Repr

/-- An exception escaping `_authorize_tenant_access_token`, i.e. whatever
`_check_error_response` (or the `response.json()` call) raised there. -/
inductive AuthFail where
  | jsonDecodeError : AuthFail
  | httpError : Nat → AuthFail
  | larkError : Int → Option String → AuthFail
deriving DecidableEq, Repr

/-- The exception corresponding to a non-`ok` envelope-check outcome. -/
def failOfCheck : CheckResult → Option AuthFail
  | .ok => none
  | .jsonDecodeError => some .jsonDecodeError
  | .httpError s => some (.httpError s)
  | .larkError c m => some (.larkError c m)

/-- `ApiClient._authorize_tenant_access_token`, lines 79–90:

  response = requests.post(url, req_body)
  self._check_error_response(response)
  self._tenant_access_token = response.json().get("tenant_access_token")

`status`/`body` are the HTTP status and parse result of the auth
endpoint response.  If the check raises, the stored token is left
unchanged and the exception propagates (`Except.error`); otherwise the
`tenant_access_token` field of the body (possibly `none`) is stored. -/
def authorize_tenant_access_token (st : ClientState) (status : Nat)
    (body : Option JsonBody) : Except AuthFail ClientState :=
  match check_error_response status body, body with
  | .ok, some b => .ok { st with tenant_access_token := b.tenant_access_token }
  | .ok, none => .error .jsonDecodeError
  | .jsonDecodeError, _ => .error .jsonDecodeError
  | .httpError s, _ => .error (.httpError s)
  | .larkError c m, _ => .error (.larkError c m)

/-- An outgoing HTTP request observable in a `MessageApiClient.send`
call: the POST to the tenant-token endpoint, or one attempt of the POST
to the message endpoint, carrying its Authorization header value. -/
inductive ApiEvent where
  | tokenRequest : ApiEvent
  | messageRequest : String → ApiEvent
deriving DecidableEq, Repr

/-- How a whole `MessageApiClient.send` call ends: the authorization
step raised (`authFail`), the header construction
`"Bearer " + self.tenant_access_token` hit a `None` token (`typeErr`,
a Python `TypeError`), or `_send_with_retries` ran (`sent`). -/
inductive SendCall where
  | authFail : AuthFail → SendCall
  | typeErr : SendCall
  | sent : SendResult → SendCall
deriving DecidableEq, Repr

/-- `MessageApiClient.send`, lines 113–146:

  self._authorize_tenant_access_token()
  headers = ... "Authorization": "Bearer " + self.tenant_access_token ...
  return self._send_with_retries(requests.post, url=url, ...)

`authStatus`/`authBody` describe the tenant-token endpoint response,
`f` the transport behaviour of the message-endpoint attempts.  The
result is the final client state, the ordered list of outgoing HTTP
requests, and the call outcome.  Each loop iteration of
`_send_with_retries` performs one `requests.post` to the message
endpoint, hence one `messageRequest` event per attempt. -/
def MessageApiClient_send (st : ClientState) (authStatus : Nat)
    (authBody : Option JsonBody) (maxRetries retry_delay : Int)
    (f : Nat → AttemptResult) : ClientState × List ApiEvent × SendCall :=
  match authorize_tenant_access_token st authStatus authBody with
  | .error e => (st, [.tokenRequest], .authFail e)
  | .ok st2 =>
    match st2.tenant_access_token with
    | none => (st2, [.tokenRequest], .typeErr)
    | some tok =>
      let r := send_with_retries maxRetries retry_delay f
      (st2,
       .tokenRequest ::
         List.replicate r.attempts (.messageRequest ("Bearer " ++ tok)),
       .sent r)

/-- Modelled from the spec: the user-identity credential fields of the
Credential Store (§3).  The module holding the user-token flow
(`api_feishu_clients` referenced from `__init__.py`) is not under
`src/`, so this state and `authorization_user` below follow the words
of §3, §4.2 and §8/P7 of the spec. -/
structure UserCredentials where
  user_access_token : String
  refresh_token : String
  user_access_token_expiry : Int
  refresh_token_expiry : Int
  oauth_code : Option String
deriving DecidableEq, Repr

/-- A token-endpoint exchange request made by `authorization()`,
carrying the credential it sends: grant type `refresh_token` with the
stored refresh token, or grant type `authorization_code` with the
stored one-time code. -/
inductive TokenEvent where
  | refreshExchange : String → TokenEvent
  | codeExchange : String → TokenEvent
deriving DecidableEq, Repr

/-- The result of a user-mode `authorization()` call: the bearer header
value, a failure because both tokens are expired and no one-time code
is stored (the `InvalidIdentity` / `MissingCode` failure of §8/P7), or
a typed envelope failure from the exchange response (§4.2 item 3). -/
inductive UserAuthResult where
  | bearer : String → UserAuthResult
  | missingCode : UserAuthResult
  | envelopeError : AuthFail → UserAuthResult
deriving DecidableEq, Repr

/-- Modelled from the spec: the user-identity branch of
`authorization()` (§4.2 items 2a–2c and 3):
a. reuse `user_access_token` while `now < user_access_token_expiry`;
b. else, while `now < refresh_token_expiry`, exchange the refresh token
   (grant type `refresh_token`), updating both tokens and both expiries
   from the response fields (`expires_in` counted from `now`);
c. else, exchange the stored one-time `oauth_code` (grant type
   `authorization_code`), updating tokens and expiries and clearing
   `oauth_code`; with no stored code this fails (MissingCode).
Every exchange response passes through `check_error_response` before
fields are read.  `refreshResp`/`codeResp` are the status and parse
result the token endpoint would return to the respective request; the
returned list holds the exchange requests actually made. -/
def authorization_user (now : Int) (st : UserCredentials)
    (refreshResp codeResp : Nat × Option JsonBody) :
    UserCredentials × List TokenEvent × UserAuthResult :=
  if now < st.user_access_token_expiry then
    (st, [], .bearer ("Bearer " ++ st.user_access_token))
  else if now < st.refresh_token_expiry then
    match check_error_response refreshResp.1 refreshResp.2, refreshResp.2 with
    | .ok, some b =>
      ({ user_access_token := b.access_token.getD "",
         refresh_token := b.refresh_token.getD "",
         user_access_token_expiry := now + b.expires_in.getD 0,
         refresh_token_expiry := now + b.refresh_token_expires_in.getD 0,
         oauth_code := st.oauth_code },
       [.refreshExchange st.refresh_token],
       .bearer ("Bearer " ++ b.access_token.getD ""))
    | r, _ =>
      (st, [.refreshExchange st.refresh_token],
       .envelopeError ((failOfCheck r).getD .jsonDecodeError))
  else
    match st.oauth_code with
    | none => (st, [], .missingCode)
    | some c =>
      match check_error_response codeResp.1 codeResp.2, codeResp.2 with
      | .ok, some b =>
        ({ user_access_token := b.access_token.getD "",
           refresh_token := b.refresh_token.getD "",
           user_access_token_expiry := now + b.expires_in.getD 0,
           refresh_token_expiry := now + b.refresh_token_expires_in.getD 0,
           oauth_code := none },
         [.codeExchange c],
         .bearer ("Bearer " ++ b.access_token.getD ""))
      | r, _ =>
        (st, [.codeExchange c],
         .envelopeError ((failOfCheck r).getD .jsonDecodeError))

/-- A Python value as `utils.py` manipulates it: strings, the
non-string scalars (`int`, `bool`, an opaque `float` token, `None`),
lists, tuples, plain dicts with string keys, and instances of the
`Obj` class, represented by their `__dict__` attribute list (the
dict portion of an `Obj` is never populated by this code).  Dicts are
association lists; the Python originals have pairwise-distinct keys. -/
inductive OVal where
  | str : String → OVal
  | intV : Int → OVal
  | boolV : Bool → OVal
  | floatV : Int → OVal
  | noneV : OVal
  | list : List OVal → OVal
  | tuple : List OVal → OVal
  | dict : List (String × OVal) → OVal
  | obj : List (String × OVal) → OVal

mutual

/-- `Obj.__init__(self, d)` of `utils.py`, lines 4–9, as the `__dict__`
it builds from the items of `d`:

  for a, b in d.items():
      if isinstance(b, (list, tuple)):
          setattr(self, a, [Obj(x) if isinstance(x, dict) else x for x in b])
      else:
          setattr(self, a, Obj(b) if isinstance(b, dict) else b)

`Obj` subclasses `dict`, so `isinstance(x, dict)` also matches an `Obj`
instance; `Obj(o)` for an `Obj` o iterates its (empty) dict portion and
yields an `Obj` with empty `__dict__`. -/
def objInit : List (String × OVal) → List (String × OVal)
  | [] => []
  | (a, b) :: rest => (a, objAttr b) :: objInit rest

/-- The value `setattr` stores for one item of the input dict. -/
def objAttr : OVal → OVal
  | .list xs => .list (objElems xs)
  | .tuple xs => .list (objElems xs)
  | .dict d => .obj (objInit d)
  | .obj _ => .obj []
  | b => b

/-- The list comprehension `[Obj(x) if isinstance(x, dict) else x for x in b]`. -/
def objElems : List OVal → List OVal
  | [] => []
  | x :: xs => objElem x :: objElems xs

/-- One element of that comprehension. -/
def objElem : OVal → OVal
  | .dict d => .obj (objInit d)
  | .obj _ => .obj []
  | x => x

end

mutual

/-- `obj_2_dict(o)` of `utils.py`, lines 16–25, over the `__dict__`
association list of `o`:

  for a, b in o.__dict__.items():
      if isinstance(b, str): r[a] = b
      elif isinstance(b, (list, tuple)):
          r[a] = [obj_2_dict(x) if isinstance(x, Obj) else x for x in b]
      elif isinstance(b, Obj): r[a] = obj_2_dict(b)

Any other value (int, float, bool, None, plain dict) is dropped. -/
def obj2dictAttrs : List (String × OVal) → List (String × OVal)
  | [] => []
  | (a, b) :: rest =>
    match b with
    | .str s => (a, .str s) :: obj2dictAttrs rest
    | .list xs => (a, .list (obj2dictElems xs)) :: obj2dictAttrs rest
    | .tuple xs => (a, .list (obj2dictElems xs)) :: obj2dictAttrs rest
    | .obj d => (a, .dict (obj2dictAttrs d)) :: obj2dictAttrs rest
    | _ => obj2dictAttrs rest

/-- The comprehension `[obj_2_dict(x) if isinstance(x, Obj) else x for x in b]`. -/
def obj2dictElems : List OVal → List OVal
  | [] => []
  | x :: xs =>
    (match x with
     | .obj d => .dict (obj2dictAttrs d)
     | y => y) :: obj2dictElems xs

end

/-- `dict_2_obj(d)` of `utils.py`, line 12–13: `return Obj(d)`. -/
def dict_2_obj (d : List (String × OVal)) : OVal :=
  .obj (objInit d)

/-- `obj_2_dict(o)`, reading the `__dict__` of the `Obj` argument.  (On
a non-`Obj` argument the Python code would fail reading `__dict__`;
it is only ever applied to `Obj` instances.) -/
def obj_2_dict (o : OVal) : List (String × OVal) :=
  obj2dictAttrs (match o with | .obj d => d | _ => [])

mutual

/-- Every leaf value is a string: only strings, lists, tuples and plain
dicts occur (the nesting closure of the claim for `utils.py`). -/
def strLeaves : OVal → Bool
  | .str _ => true
  | .list xs => strLeavesList xs
  | .tuple xs => strLeavesList xs
  | .dict d => strLeavesDict d
  | _ => false

/-- `strLeaves` on every element of a list. -/
def strLeavesList : List OVal → Bool
  | [] => true
  | x :: xs => strLeaves x && strLeavesList xs

/-- `strLeaves` on every value of an association list. -/
def strLeavesDict : List (String × OVal) → Bool
  | [] => true
  | (_, b) :: rest => strLeaves b && strLeavesDict rest

end

/-- A non-string scalar: int, float, bool or None. -/
def nonStringScalar : OVal → Bool
  | .intV _ => true
  | .boolV _ => true
  | .floatV _ => true
  | .noneV => true
  | _ => false

mutual

/-- The value transform named by the claim read literally: replace
every tuple, at every nesting depth, by a list. -/
def tuplesToLists : OVal → OVal
  | .str s => .str s
  | .intV n => .intV n
  | .boolV b => .boolV b
  | .floatV q => .floatV q
  | .noneV => .noneV
  | .list xs => .list (tuplesToListsL xs)
  | .tuple xs => .list (tuplesToListsL xs)
  | .dict d => .dict (tuplesToListsD d)
  | .obj d => .obj (tuplesToListsD d)

/-- `tuplesToLists` on every element of a list. -/
def tuplesToListsL : List OVal → List OVal
  | [] => []
  | x :: xs => tuplesToLists x :: tuplesToListsL xs

/-- `tuplesToLists` on every value of an association list. -/
def tuplesToListsD : List (String × OVal) → List (String × OVal)
  | [] => []
  | (a, b) :: rest => (a, tuplesToLists b) :: tuplesToListsD rest

end

mutual

/-- The transform `obj_2_dict ∘ dict_2_obj` actually computes on
all-string-leaf dicts: a tuple that is a direct value of a dict becomes
a list; inside such a (former) list or tuple, direct elements that are
dicts are recursed into, while all other elements — nested lists and
nested tuples included — are kept untouched. -/
def normDict : List (String × OVal) → List (String × OVal)
  | [] => []
  | (a, b) :: rest => (a, normAttr b) :: normDict rest

/-- `normDict` on one direct dict value. -/
def normAttr : OVal → OVal
  | .list xs => .list (normElems xs)
  | .tuple xs => .list (normElems xs)
  | .dict d => .dict (normDict d)
  | v => v

/-- `normDict` on the direct elements of a dict-value list or tuple. -/
def normElems : List OVal → List OVal
  | [] => []
  | x :: xs =>
    (match x with
     | .dict d => .dict (normDict d)
     | y => y) :: normElems xs

end

/-! ## Theorems -/

/-- C9: for a client constructed with `max_retries ≤ 0`,
`_send_with_retries` performs zero HTTP attempts, never sleeps, raises
nothing, and returns `None` (the `for` loop over `range(max_retries)`
never runs and the function falls through). -/
theorem c9_nonpositive_max_retries (maxRetries retry_delay : Int)
    (f : Nat → AttemptResult) (h : maxRetries ≤ 0) :
    send_with_retries maxRetries retry_delay f =
      ⟨.noneReturn, 0, []⟩ := by
  unfold send_with_retries
  rw [Int.toNat_of_nonpos h]
  rfl

/-- Witness for C9 at `max_retries = -2`. -/
theorem c9_witness :
    send_with_retries (-2) 2 (fun _ => .connFail) =
      ⟨.noneReturn, 0, []⟩ :=
  c9_nonpositive_max_retries (-2) 2 (fun _ => .connFail) (by decide)

/-- C1: when the first attempt yields a parsed body whose `code` is
non-zero and not -1, `_send_with_retries` raises
`LarkException(code, msg)` after exactly one HTTP attempt, with no
sleep and no re-attempt, regardless of how many attempts remain. -/
theorem c1_application_error_not_retried
    (maxRetries retry_delay : Int) (f : Nat → AttemptResult)
    (status : Nat) (b : JsonBody) (c : Int)
    (hmax : 1 ≤ maxRetries)
    (hf : f 0 = .httpResp status (some b))
    (hcode : b.code.getD (-1) = c) (hc0 : c ≠ 0) (hcm1 : c ≠ -1) :
    send_with_retries maxRetries retry_delay f =
      ⟨.raiseLark c b.msg, 1, []⟩ := by
  obtain ⟨n, hn⟩ : ∃ n, maxRetries.toNat = n + 1 :=
    ⟨maxRetries.toNat - 1, by omega⟩
  have hcheck : check_error_response status (some b) = .larkError c b.msg := by
    simp only [check_error_response, hcode]
    rw [if_pos hc0, if_neg hcm1]
  unfold send_with_retries
  rw [hn]
  simp [sendFrom, hf, hcheck]

/-- Witness for C1: code 40001 on the first attempt with
`max_retries = 3`. -/
theorem c1_witness :
    send_with_retries 3 2
        (fun _ => .httpResp 200
          (some ⟨some 40001, some "param invalid", none, none, none, none, none, ""⟩)) =
      ⟨.raiseLark 40001 (some "param invalid"), 1, []⟩ :=
  c1_application_error_not_retried 3 2
    (fun _ => .httpResp 200
      (some ⟨some 40001, some "param invalid", none, none, none, none, none, ""⟩))
    200 ⟨some 40001, some "param invalid", none, none, none, none, none, ""⟩
    40001 (by decide) rfl rfl (by decide) (by decide)

/-- C3 counterexample: a response that parses with `code == -1` and a
successful HTTP status 200 does NOT pass the envelope check silently:
`_check_error_response` falls through `resp.raise_for_status()` (which
does not raise on 2xx) to `raise LarkException(-1, msg)`. -/
theorem c3_counterexample :
    check_error_response 200
        (some ⟨some (-1), some "m", none, none, none, none, none, ""⟩) =
      .larkError (-1) (some "m") ∧
    check_error_response 200
        (some ⟨some (-1), some "m", none, none, none, none, none, ""⟩) ≠
      .ok := by
  exact ⟨rfl, by decide⟩

/-- C3 amended: for a parsed body with `code == -1` (including a missing
`code` field, which defaults to -1), the envelope check always raises:
`HTTPError` when the status is a 4xx/5xx failure status, and otherwise
`LarkException(-1, msg)` — it never returns normally. -/
theorem c3_code_minus_one_always_raises (status : Nat) (b : JsonBody)
    (h : b.code.getD (-1) = -1) :
    check_error_response status (some b) =
      (if raisesForStatus status then CheckResult.httpError status
       else CheckResult.larkError (-1) b.msg) := by
  simp only [check_error_response, h]
  simp

/-- Witness for the amended C3 at status 404 with an absent code field. -/
theorem c3_witness :
    check_error_response 404
        (some ⟨none, none, none, none, none, none, none, ""⟩) =
      (if raisesForStatus 404 then CheckResult.httpError 404
       else CheckResult.larkError (-1) none) :=
  c3_code_minus_one_always_raises 404
    ⟨none, none, none, none, none, none, none, ""⟩ rfl

/-- C6 counterexample: with an unparseable response body (status 200),
the call does not log-and-return: `resp.json()` inside
`_check_error_response` raises a JSON decode error, which matches
neither `except` clause of `_send_with_retries` and propagates to the
caller after one attempt. -/
theorem c6_counterexample :
    send_with_retries 3 2 (fun _ => .httpResp 200 none) =
      ⟨.raiseJson, 1, []⟩ ∧
    (send_with_retries 3 2 (fun _ => .httpResp 200 none)).outcome ≠
      .noneReturn := by
  exact ⟨rfl, by decide⟩

/-- C6 amended: an unparseable body on the first attempt makes the call
propagate the JSON decode error to the caller after exactly one
attempt: it is neither swallowed nor logged-and-returned, never
retried, and no sleep occurs. -/
theorem c6_unparseable_body_raises
    (maxRetries retry_delay : Int) (f : Nat → AttemptResult) (status : Nat)
    (hmax : 1 ≤ maxRetries) (hf : f 0 = .httpResp status none) :
    send_with_retries maxRetries retry_delay f = ⟨.raiseJson, 1, []⟩ := by
  obtain ⟨n, hn⟩ : ∃ n, maxRetries.toNat = n + 1 :=
    ⟨maxRetries.toNat - 1, by omega⟩
  unfold send_with_retries
  rw [hn]
  simp [sendFrom, hf, check_error_response]

/-- Witness for the amended C6. -/
theorem c6_witness :
    send_with_retries 5 7 (fun _ => .httpResp 502 none) =
      ⟨.raiseJson, 1, []⟩ :=
  c6_unparseable_body_raises 5 7 (fun _ => .httpResp 502 none) 502
    (by decide) rfl

/-- C2 counterexample: with `max_retries = 3` and every attempt a
connection failure, the code makes exactly one attempt (not 3), never
sleeps, and propagates the connection error immediately: a connection
failure is not an `HTTPError`, so the retry loop does not catch it. -/
theorem c2_counterexample :
    send_with_retries 3 2 (fun _ => .connFail) = ⟨.raiseConn, 1, []⟩ ∧
    (send_with_retries 3 2 (fun _ => .connFail)).attempts ≠ 3 := by
  exact ⟨rfl, by decide⟩

/-- One loop iteration of `_send_with_retries` whose attempt hits the
`except HTTPError` clause: sleep-and-retry when attempts remain, raise
otherwise. -/
theorem sendFrom_step_httpError (maxRetries retry_delay : Int)
    (f : Nat → AttemptResult) (attempt fuel : Nat) (st : Nat) (b : JsonBody)
    (hf : f attempt = .httpResp st (some b))
    (hchk : check_error_response st (some b) = .httpError st) :
    sendFrom maxRetries retry_delay f attempt (fuel + 1) =
      (if (attempt : Int) < maxRetries - 1 then
        ⟨(sendFrom maxRetries retry_delay f (attempt + 1) fuel).outcome,
         (sendFrom maxRetries retry_delay f (attempt + 1) fuel).attempts + 1,
         retry_delay ::
           (sendFrom maxRetries retry_delay f (attempt + 1) fuel).sleeps⟩
      else ⟨.raiseHttp st, 1, []⟩) := by
  conv_lhs => simp only [sendFrom]
  simp only [hf, hchk]

/-- One loop iteration of `_send_with_retries` whose attempt passes the
envelope check: return the decoded body after this single attempt. -/
theorem sendFrom_step_ok (maxRetries retry_delay : Int)
    (f : Nat → AttemptResult) (attempt fuel : Nat) (st : Nat) (b : JsonBody)
    (hf : f attempt = .httpResp st (some b))
    (hchk : check_error_response st (some b) = .ok) :
    sendFrom maxRetries retry_delay f attempt (fuel + 1) =
      ⟨.success b, 1, []⟩ := by
  conv_lhs => simp only [sendFrom]
  simp only [hf, hchk]

/-- Retry loop invariant for the amended C2: if every attempt from
`attempt` on returns a parsed body with `code == -1` and a 4xx/5xx
status, and `attempt + fuel + 1 = max_retries`, the remaining loop
performs `fuel + 1` attempts with a sleep between consecutive ones and
raises the `HTTPError` of the last attempt. -/
theorem sendFrom_all_http_fail
    (maxRetries retry_delay : Int) (f : Nat → AttemptResult)
    (s : Nat → Nat) (b : Nat → JsonBody)
    (hf : ∀ i, f i = .httpResp (s i) (some (b i)))
    (hcode : ∀ i, (b i).code.getD (-1) = -1)
    (hstat : ∀ i, raisesForStatus (s i) = true) :
    ∀ (fuel attempt : Nat), (attempt : Int) + ((fuel : Int) + 1) = maxRetries →
      sendFrom maxRetries retry_delay f attempt (fuel + 1) =
        ⟨.raiseHttp (s (attempt + fuel)), fuel + 1,
          List.replicate fuel retry_delay⟩ := by
  intro fuel
  induction fuel with
  | zero =>
    intro attempt hinv
    have hcheck : check_error_response (s attempt) (some (b attempt)) =
        .httpError (s attempt) := by
      simp only [check_error_response, hcode attempt]
      simp [hstat attempt]
    rw [sendFrom_step_httpError maxRetries retry_delay f attempt 0
      (s attempt) (b attempt) (hf attempt) hcheck]
    rw [if_neg (by omega : ¬ ((attempt : Int) < maxRetries - 1))]
    simp
  | succ fuel ih =>
    intro attempt hinv
    have hcheck : check_error_response (s attempt) (some (b attempt)) =
        .httpError (s attempt) := by
      simp only [check_error_response, hcode attempt]
      simp [hstat attempt]
    rw [sendFrom_step_httpError maxRetries retry_delay f attempt (fuel + 1)
      (s attempt) (b attempt) (hf attempt) hcheck]
    rw [if_pos (by omega : (attempt : Int) < maxRetries - 1)]
    rw [ih (attempt + 1) (by push_cast; omega)]
    have harg : attempt + 1 + fuel = attempt + (fuel + 1) := by omega
    simp [harg, List.replicate_succ]

/-- C2 amended: retry-until-exhaustion holds for the `HTTPError` class
of transport failures only — when every attempt returns a parsed body
with `code == -1` and a 4xx/5xx status, the executor attempts exactly
`max_retries` times, sleeping `retry_delay` between consecutive
attempts, then raises the last `HTTPError`.  (A connection failure, by
contrast, propagates immediately without retry — see the
counterexample.) -/
theorem c2_http_transport_failures_retried
    (maxRetries retry_delay : Int) (f : Nat → AttemptResult)
    (s : Nat → Nat) (b : Nat → JsonBody)
    (hmax : 1 ≤ maxRetries)
    (hf : ∀ i, f i = .httpResp (s i) (some (b i)))
    (hcode : ∀ i, (b i).code.getD (-1) = -1)
    (hstat : ∀ i, raisesForStatus (s i) = true) :
    send_with_retries maxRetries retry_delay f =
      ⟨.raiseHttp (s (maxRetries.toNat - 1)), maxRetries.toNat,
        List.replicate (maxRetries.toNat - 1) retry_delay⟩ := by
  obtain ⟨n, hn⟩ : ∃ n, maxRetries.toNat = n + 1 :=
    ⟨maxRetries.toNat - 1, by omega⟩
  unfold send_with_retries
  rw [hn]
  have h := sendFrom_all_http_fail maxRetries retry_delay f s b hf hcode
    hstat n 0 (by omega)
  simpa [hn] using h

/-- Witness for the amended C2: three attempts, two sleeps, final
`HTTPError` with status 500. -/
theorem c2_witness :
    send_with_retries 3 2
        (fun _ => .httpResp 500
          (some ⟨some (-1), none, none, none, none, none, none, ""⟩)) =
      ⟨.raiseHttp 500, 3, [2, 2]⟩ := by
  have h := c2_http_transport_failures_retried 3 2
    (fun _ => .httpResp 500
      (some ⟨some (-1), none, none, none, none, none, none, ""⟩))
    (fun _ => 500)
    (fun _ => ⟨some (-1), none, none, none, none, none, none, ""⟩)
    (by decide) (fun _ => rfl) (fun _ => rfl) (fun _ => rfl)
  simpa using h

/-- C7 counterexample: a connection failure on attempt 1 followed by an
available `code = 0` response on attempt 2 does NOT make 2 attempts:
the connection failure propagates immediately after 1 attempt. -/
theorem c7_counterexample :
    send_with_retries 3 2
        (fun i => if i = 0 then .connFail
          else .httpResp 200
            (some ⟨some 0, none, none, none, none, none, none, "payload"⟩)) =
      ⟨.raiseConn, 1, []⟩ ∧
    (send_with_retries 3 2
        (fun i => if i = 0 then .connFail
          else .httpResp 200
            (some ⟨some 0, none, none, none, none, none, none, "payload"⟩))).attempts ≠ 2 := by
  exact ⟨rfl, by decide⟩

/-- C7 amended: when the first attempt fails at the HTTP level (parsed
body with `code == -1` and a 4xx/5xx status) and the second attempt
returns a parsed body with `code == 0`, the call makes exactly 2
attempts, sleeps once for `retry_delay`, and returns the full decoded
body of the second attempt.  (A connection failure on attempt 1, by
contrast, aborts the call — see the counterexample.) -/
theorem c7_http_fail_then_success
    (maxRetries retry_delay : Int) (f : Nat → AttemptResult)
    (s0 s1 : Nat) (b0 b1 : JsonBody)
    (hmax : 2 ≤ maxRetries)
    (h0 : f 0 = .httpResp s0 (some b0))
    (h0c : b0.code.getD (-1) = -1) (h0s : raisesForStatus s0 = true)
    (h1 : f 1 = .httpResp s1 (some b1))
    (h1c : b1.code.getD (-1) = 0) :
    send_with_retries maxRetries retry_delay f =
      ⟨.success b1, 2, [retry_delay]⟩ := by
  obtain ⟨n, hn⟩ : ∃ n, maxRetries.toNat = n + 2 :=
    ⟨maxRetries.toNat - 2, by omega⟩
  have hcheck0 : check_error_response s0 (some b0) = .httpError s0 := by
    simp only [check_error_response, h0c]
    simp [h0s]
  have hcheck1 : check_error_response s1 (some b1) = .ok := by
    simp only [check_error_response, h1c]
    simp
  unfold send_with_retries
  rw [hn, show n + 2 = (n + 1) + 1 from rfl]
  rw [sendFrom_step_httpError maxRetries retry_delay f 0 (n + 1) s0 b0 h0
    hcheck0]
  rw [if_pos (by omega : ((0 : Nat) : Int) < maxRetries - 1)]
  rw [sendFrom_step_ok maxRetries retry_delay f 1 n s1 b1 h1 hcheck1]

/-- Witness for the amended C7. -/
theorem c7_witness :
    send_with_retries 3 2
        (fun i => if i = 0
          then .httpResp 503
            (some ⟨some (-1), none, none, none, none, none, none, ""⟩)
          else .httpResp 200
            (some ⟨some 0, none, none, none, none, none, none, "payload"⟩)) =
      ⟨.success ⟨some 0, none, none, none, none, none, none, "payload"⟩, 2,
        [2]⟩ :=
  c7_http_fail_then_success 3 2
    (fun i => if i = 0
      then .httpResp 503
        (some ⟨some (-1), none, none, none, none, none, none, ""⟩)
      else .httpResp 200
        (some ⟨some 0, none, none, none, none, none, none, "payload"⟩))
    503 200 ⟨some (-1), none, none, none, none, none, none, ""⟩
    ⟨some 0, none, none, none, none, none, none, "payload"⟩
    (by decide) rfl rfl rfl rfl rfl

/-- Structure of the outgoing-request trace of one
`MessageApiClient.send` call: the tenant-token acquisition is always
the first request, and it is the only one in the call. -/
theorem send_trace_one_token_request (st : ClientState) (s : Nat)
    (b : Option JsonBody) (m d : Int) (f : Nat → AttemptResult) :
    (MessageApiClient_send st s b m d f).2.1.count ApiEvent.tokenRequest = 1 ∧
    (MessageApiClient_send st s b m d f).2.1.head? =
      some ApiEvent.tokenRequest := by
  unfold MessageApiClient_send
  cases hA : authorize_tenant_access_token st s b with
  | error e => simp
  | ok st2 =>
    cases ht : st2.tenant_access_token with
    | none => simp [ht]
    | some tok =>
      refine ⟨?_, by simp [ht]⟩
      simp only [ht]
      have hz : (List.replicate
          (send_with_retries m d f).attempts
          (ApiEvent.messageRequest ("Bearer " ++ tok))).count
          ApiEvent.tokenRequest = 0 := by
        rw [List.count_eq_zero]
        intro hmem
        have h2 := List.eq_of_mem_replicate hmem
        exact ApiEvent.noConfusion h2
      simp [List.count_cons, hz]

/-- C4: every `MessageApiClient.send` call unconditionally performs a
fresh tenant-token acquisition as its first outgoing request, before
the message request, and stores the token returned by a successful
acquisition; two consecutive calls therefore each trigger exactly one
tenant-token acquisition (no caching across calls). -/
theorem c4_fresh_tenant_token_each_call
    (st : ClientState) (s1 s2 : Nat) (b1 b2 : Option JsonBody)
    (m1 d1 m2 d2 : Int) (f1 f2 : Nat → AttemptResult) :
    (MessageApiClient_send st s1 b1 m1 d1 f1).2.1.count
        ApiEvent.tokenRequest = 1 ∧
    (MessageApiClient_send st s1 b1 m1 d1 f1).2.1.head? =
        some ApiEvent.tokenRequest ∧
    (MessageApiClient_send (MessageApiClient_send st s1 b1 m1 d1 f1).1
        s2 b2 m2 d2 f2).2.1.count ApiEvent.tokenRequest = 1 ∧
    (MessageApiClient_send (MessageApiClient_send st s1 b1 m1 d1 f1).1
        s2 b2 m2 d2 f2).2.1.head? = some ApiEvent.tokenRequest ∧
    (∀ bb : JsonBody, b1 = some bb → bb.code.getD (-1) = 0 →
      (MessageApiClient_send st s1 b1 m1 d1 f1).1.tenant_access_token =
        bb.tenant_access_token) := by
  refine ⟨(send_trace_one_token_request st s1 b1 m1 d1 f1).1,
          (send_trace_one_token_request st s1 b1 m1 d1 f1).2,
          (send_trace_one_token_request _ s2 b2 m2 d2 f2).1,
          (send_trace_one_token_request _ s2 b2 m2 d2 f2).2, ?_⟩
  intro bb hb hcode
  subst hb
  have hchk : check_error_response s1 (some bb) = .ok := by
    simp [check_error_response, hcode]
  unfold MessageApiClient_send authorize_tenant_access_token
  rw [hchk]
  cases ht : bb.tenant_access_token <;> simp [ht]

/-- Witness for C4 with concrete successful calls. -/
theorem c4_witness :
    (MessageApiClient_send ⟨some ""⟩ 200
        (some ⟨some 0, none, some "tok1", none, none, none, none, ""⟩)
        3 2 (fun _ => .httpResp 200
          (some ⟨some 0, none, none, none, none, none, none, "r"⟩))).2.1.count
        ApiEvent.tokenRequest = 1 ∧
    (MessageApiClient_send ⟨some ""⟩ 200
        (some ⟨some 0, none, some "tok1", none, none, none, none, ""⟩)
        3 2 (fun _ => .httpResp 200
          (some ⟨some 0, none, none, none, none, none, none, "r"⟩))).1.tenant_access_token =
      some "tok1" := by
  have h := c4_fresh_tenant_token_each_call ⟨some ""⟩ 200 200
    (some ⟨some 0, none, some "tok1", none, none, none, none, ""⟩)
    (some ⟨some 0, none, some "tok1", none, none, none, none, ""⟩)
    3 2 3 2
    (fun _ => .httpResp 200
      (some ⟨some 0, none, none, none, none, none, none, "r"⟩))
    (fun _ => .httpResp 200
      (some ⟨some 0, none, none, none, none, none, none, "r"⟩))
  exact ⟨h.1, h.2.2.2.2 ⟨some 0, none, some "tok1", none, none, none, none, ""⟩
    rfl rfl⟩

/-- C5: when the envelope check on the tenant-token response raises,
the whole `send` call aborts with that same typed failure: the stored
`_tenant_access_token` is unchanged and no message request is ever
sent. -/
theorem c5_auth_failure_aborts_call
    (st : ClientState) (s : Nat) (b : Option JsonBody)
    (m d : Int) (f : Nat → AttemptResult)
    (h : check_error_response s b ≠ CheckResult.ok) :
    ∃ e, failOfCheck (check_error_response s b) = some e ∧
      MessageApiClient_send st s b m d f =
        (st, [ApiEvent.tokenRequest], SendCall.authFail e) := by
  unfold MessageApiClient_send authorize_tenant_access_token
  cases hc : check_error_response s b with
  | ok => exact absurd hc h
  | jsonDecodeError => cases b <;> simp [failOfCheck]
  | httpError s2 => cases b <;> simp [failOfCheck]
  | larkError c msg => cases b <;> simp [failOfCheck]

/-- Witness for C5: an auth response with application code 99 aborts
the call, leaving the token untouched and sending no message request. -/
theorem c5_witness :
    ∃ e, failOfCheck (check_error_response 200
        (some ⟨some 99, some "app error", none, none, none, none, none, ""⟩)) =
        some e ∧
      MessageApiClient_send ⟨some "old"⟩ 200
          (some ⟨some 99, some "app error", none, none, none, none, none, ""⟩)
          3 2 (fun _ => .connFail) =
        (⟨some "old"⟩, [ApiEvent.tokenRequest], SendCall.authFail e) :=
  c5_auth_failure_aborts_call ⟨some "old"⟩ 200
    (some ⟨some 99, some "app error", none, none, none, none, none, ""⟩)
    3 2 (fun _ => .connFail) (by decide)

/-- With both expiries passed and no stored code, a user-mode
authorize call fails with the missing-code failure, making no exchange
request. -/
theorem authorization_user_missing_code (now : Int) (st : UserCredentials)
    (rR cR : Nat × Option JsonBody)
    (h1 : st.user_access_token_expiry ≤ now)
    (h2 : st.refresh_token_expiry ≤ now) (hc : st.oauth_code = none) :
    authorization_user now st rR cR = (st, [], .missingCode) := by
  unfold authorization_user
  rw [if_neg (by omega : ¬ now < st.user_access_token_expiry),
      if_neg (by omega : ¬ now < st.refresh_token_expiry), hc]

/-- C8: the stored one-time `oauth_code` is consumed exactly once, on
its first successful use minting a user token via the
authorization-code exchange; a later authorize call with both the
access token and the refresh token expired and no new code set fails
with the missing-code failure and makes no exchange request, rather
than resending the old code. -/
theorem c8_oauth_code_single_use
    (now : Int) (st : UserCredentials) (c : String)
    (refreshResp codeResp : Nat × Option JsonBody) (b : JsonBody)
    (hcode : st.oauth_code = some c)
    (hexp : st.user_access_token_expiry ≤ now)
    (hrexp : st.refresh_token_expiry ≤ now)
    (hresp : codeResp.2 = some b) (hok : b.code.getD (-1) = 0) :
    (authorization_user now st refreshResp codeResp).2.1 =
      [TokenEvent.codeExchange c] ∧
    (authorization_user now st refreshResp codeResp).1.oauth_code = none ∧
    (∀ (now2 : Int) (rR cR : Nat × Option JsonBody),
      (authorization_user now st refreshResp codeResp).1.user_access_token_expiry ≤ now2 →
      (authorization_user now st refreshResp codeResp).1.refresh_token_expiry ≤ now2 →
      authorization_user now2 (authorization_user now st refreshResp codeResp).1 rR cR =
        ((authorization_user now st refreshResp codeResp).1, [],
          UserAuthResult.missingCode)) := by
  have hchk : check_error_response codeResp.1 codeResp.2 = .ok := by
    rw [hresp]
    simp [check_error_response, hok]
  have hmain : authorization_user now st refreshResp codeResp =
      ({ user_access_token := b.access_token.getD "",
         refresh_token := b.refresh_token.getD "",
         user_access_token_expiry := now + b.expires_in.getD 0,
         refresh_token_expiry := now + b.refresh_token_expires_in.getD 0,
         oauth_code := none },
       [TokenEvent.codeExchange c],
       UserAuthResult.bearer ("Bearer " ++ b.access_token.getD "")) := by
    unfold authorization_user
    rw [if_neg (by omega : ¬ now < st.user_access_token_expiry),
        if_neg (by omega : ¬ now < st.refresh_token_expiry), hcode]
    rw [hchk, hresp]
  rw [hmain]
  refine ⟨rfl, rfl, ?_⟩
  intro now2 rR cR h1 h2
  exact authorization_user_missing_code now2 _ rR cR h1 h2 rfl

/-- Witness for C8 with a concrete exchange. -/
theorem c8_witness :
    (authorization_user 10 ⟨"", "", 0, 0, some "CODE"⟩ (200, none)
        (200, some ⟨some 0, none, none, some "A", some "R", some 7200,
          some 86400, ""⟩)).2.1 = [TokenEvent.codeExchange "CODE"] ∧
    (authorization_user 10 ⟨"", "", 0, 0, some "CODE"⟩ (200, none)
        (200, some ⟨some 0, none, none, some "A", some "R", some 7200,
          some 86400, ""⟩)).1.oauth_code = none ∧
    authorization_user 999999
        (authorization_user 10 ⟨"", "", 0, 0, some "CODE"⟩ (200, none)
          (200, some ⟨some 0, none, none, some "A", some "R", some 7200,
            some 86400, ""⟩)).1 (200, none) (200, none) =
      ((authorization_user 10 ⟨"", "", 0, 0, some "CODE"⟩ (200, none)
          (200, some ⟨some 0, none, none, some "A", some "R", some 7200,
            some 86400, ""⟩)).1, [], UserAuthResult.missingCode) := by
  have h := c8_oauth_code_single_use 10 ⟨"", "", 0, 0, some "CODE"⟩ "CODE"
    (200, none)
    (200, some ⟨some 0, none, none, some "A", some "R", some 7200,
      some 86400, ""⟩)
    ⟨some 0, none, none, some "A", some "R", some 7200, some 86400, ""⟩
    rfl (by decide) (by decide) rfl rfl
  exact ⟨h.1, h.2.1, h.2.2 999999 (200, none) (200, none) (by decide)
    (by decide)⟩

mutual

/-- On all-string-leaf dicts the round trip over the attribute list is
the `normDict` transform. -/
theorem roundtrip_dict : ∀ (d : List (String × OVal)),
    strLeavesDict d = true → obj2dictAttrs (objInit d) = normDict d
  | [], _ => by simp [objInit, obj2dictAttrs, normDict]
  | (a, b) :: rest, h => by
    rw [strLeavesDict] at h
    obtain ⟨hb, hrest⟩ := Bool.and_eq_true_iff.1 h
    have hr := roundtrip_dict rest hrest
    cases b with
    | str s => simp [objInit, objAttr, obj2dictAttrs, normDict, normAttr, hr]
    | list xs =>
      rw [strLeaves] at hb
      have he := roundtrip_elems xs hb
      simp [objInit, objAttr, obj2dictAttrs, normDict, normAttr, hr, he]
    | tuple xs =>
      rw [strLeaves] at hb
      have he := roundtrip_elems xs hb
      simp [objInit, objAttr, obj2dictAttrs, normDict, normAttr, hr, he]
    | dict d2 =>
      rw [strLeaves] at hb
      have hd := roundtrip_dict d2 hb
      simp [objInit, objAttr, obj2dictAttrs, normDict, normAttr, hr, hd]
    | intV n => simp [strLeaves] at hb
    | boolV x => simp [strLeaves] at hb
    | floatV q => simp [strLeaves] at hb
    | noneV => simp [strLeaves] at hb
    | obj d2 => simp [strLeaves] at hb

/-- On all-string-leaf element lists the round trip over the elements
of a dict-value list/tuple is the `normElems` transform. -/
theorem roundtrip_elems : ∀ (xs : List OVal),
    strLeavesList xs = true → obj2dictElems (objElems xs) = normElems xs
  | [], _ => by simp [objElems, obj2dictElems, normElems]
  | x :: xs, h => by
    rw [strLeavesList] at h
    obtain ⟨hx, hxs⟩ := Bool.and_eq_true_iff.1 h
    have hr := roundtrip_elems xs hxs
    cases x with
    | dict d2 =>
      rw [strLeaves] at hx
      have hd := roundtrip_dict d2 hx
      simp [objElems, objElem, obj2dictElems, normElems, hr, hd]
    | str s => simp [objElems, objElem, obj2dictElems, normElems, hr]
    | list ys => simp [objElems, objElem, obj2dictElems, normElems, hr]
    | tuple ys => simp [objElems, objElem, obj2dictElems, normElems, hr]
    | intV n => simp [strLeaves] at hx
    | boolV y => simp [strLeaves] at hx
    | floatV q => simp [strLeaves] at hx
    | noneV => simp [strLeaves] at hx
    | obj d2 => simp [strLeaves] at hx

end

/-- A key present in the output of `obj_2_dict` comes from the
attribute list it was applied to. -/
theorem obj2dictAttrs_key_sub : ∀ (L : List (String × OVal)) (a : String)
    (w : OVal), (a, w) ∈ obj2dictAttrs L → a ∈ L.map Prod.fst
  | [], a, w, h => by simp [obj2dictAttrs] at h
  | (a1, b1) :: rest, a, w, h => by
    have step : a = a1 ∨ (a, w) ∈ obj2dictAttrs rest := by
      cases b1 with
      | str s =>
        simp only [obj2dictAttrs] at h
        rcases List.mem_cons.1 h with h1 | h1
        · exact Or.inl (congrArg Prod.fst h1)
        · exact Or.inr h1
      | list xs =>
        simp only [obj2dictAttrs] at h
        rcases List.mem_cons.1 h with h1 | h1
        · exact Or.inl (congrArg Prod.fst h1)
        · exact Or.inr h1
      | tuple xs =>
        simp only [obj2dictAttrs] at h
        rcases List.mem_cons.1 h with h1 | h1
        · exact Or.inl (congrArg Prod.fst h1)
        · exact Or.inr h1
      | obj d2 =>
        simp only [obj2dictAttrs] at h
        rcases List.mem_cons.1 h with h1 | h1
        · exact Or.inl (congrArg Prod.fst h1)
        · exact Or.inr h1
      | dict d2 => exact Or.inr (by simpa [obj2dictAttrs] using h)
      | intV n => exact Or.inr (by simpa [obj2dictAttrs] using h)
      | boolV x => exact Or.inr (by simpa [obj2dictAttrs] using h)
      | floatV q => exact Or.inr (by simpa [obj2dictAttrs] using h)
      | noneV => exact Or.inr (by simpa [obj2dictAttrs] using h)
    rcases step with h1 | h1
    · simp [h1]
    · simp [obj2dictAttrs_key_sub rest a w h1]

/-- `Obj.__init__` keeps the keys of the input dict, in order. -/
theorem objInit_keys : ∀ d : List (String × OVal),
    (objInit d).map Prod.fst = d.map Prod.fst
  | [] => rfl
  | (a, b) :: rest => by simp [objInit, objInit_keys rest]

/-- A key bound to a non-string scalar in a key-distinct dict is absent
from the round trip `obj_2_dict (dict_2_obj d)`. -/
theorem scalar_key_dropped : ∀ (d : List (String × OVal)) (a : String)
    (v : OVal), (d.map Prod.fst).Nodup → (a, v) ∈ d →
    nonStringScalar v = true → ∀ w, (a, w) ∉ obj2dictAttrs (objInit d)
  | [], a, v, _, hmem, _ => by simp at hmem
  | (a1, b1) :: rest, a, v, hnd, hmem, hsc => by
    intro w hw
    have hnd1 : a1 ∉ rest.map Prod.fst := by
      simp only [List.map, List.nodup_cons] at hnd
      exact hnd.1
    have hnd2 : (rest.map Prod.fst).Nodup := by
      simp only [List.map, List.nodup_cons] at hnd
      exact hnd.2
    rcases List.mem_cons.1 hmem with h1 | h2
    · have ha : a = a1 := congrArg Prod.fst h1
      have hb : b1 = v := (congrArg Prod.snd h1).symm
      subst ha
      subst hb
      have hdrop : obj2dictAttrs (objInit ((a, b1) :: rest)) =
          obj2dictAttrs (objInit rest) := by
        cases b1 with
        | intV n => simp [objInit, objAttr, obj2dictAttrs]
        | boolV x => simp [objInit, objAttr, obj2dictAttrs]
        | floatV q => simp [objInit, objAttr, obj2dictAttrs]
        | noneV => simp [objInit, objAttr, obj2dictAttrs]
        | str s => simp [nonStringScalar] at hsc
        | list xs => simp [nonStringScalar] at hsc
        | tuple xs => simp [nonStringScalar] at hsc
        | dict d2 => simp [nonStringScalar] at hsc
        | obj d2 => simp [nonStringScalar] at hsc
      rw [hdrop] at hw
      have := obj2dictAttrs_key_sub (objInit rest) a w hw
      rw [objInit_keys rest] at this
      exact hnd1 this
    · have hmem2 : a ∈ rest.map Prod.fst :=
        List.mem_map.2 ⟨(a, v), h2, rfl⟩
      rw [objInit] at hw
      have step : a = a1 ∨ (a, w) ∈ obj2dictAttrs (objInit rest) := by
        cases hob : objAttr b1 with
        | str s =>
          rw [hob] at hw
          simp only [obj2dictAttrs] at hw
          rcases List.mem_cons.1 hw with h3 | h3
          · exact Or.inl (congrArg Prod.fst h3)
          · exact Or.inr h3
        | list xs =>
          rw [hob] at hw
          simp only [obj2dictAttrs] at hw
          rcases List.mem_cons.1 hw with h3 | h3
          · exact Or.inl (congrArg Prod.fst h3)
          · exact Or.inr h3
        | tuple xs =>
          rw [hob] at hw
          simp only [obj2dictAttrs] at hw
          rcases List.mem_cons.1 hw with h3 | h3
          · exact Or.inl (congrArg Prod.fst h3)
          · exact Or.inr h3
        | obj d2 =>
          rw [hob] at hw
          simp only [obj2dictAttrs] at hw
          rcases List.mem_cons.1 hw with h3 | h3
          · exact Or.inl (congrArg Prod.fst h3)
          · exact Or.inr h3
        | dict d2 => exact Or.inr (by rw [hob] at hw; simpa [obj2dictAttrs] using hw)
        | intV n => exact Or.inr (by rw [hob] at hw; simpa [obj2dictAttrs] using hw)
        | boolV x => exact Or.inr (by rw [hob] at hw; simpa [obj2dictAttrs] using hw)
        | floatV q => exact Or.inr (by rw [hob] at hw; simpa [obj2dictAttrs] using hw)
        | noneV => exact Or.inr (by rw [hob] at hw; simpa [obj2dictAttrs] using hw)
      rcases step with h3 | h3
      · subst h3
        exact hnd1 hmem2
      · exact scalar_key_dropped rest a v hnd2 h2 hsc w h3

/-- C10 counterexample: for the all-string-leaf dict
`d = {"a": [("x",)]}` (a tuple nested inside a list), the round trip
`obj_2_dict(dict_2_obj(d))` keeps the inner tuple as a tuple, so it
differs from `d` with tuples mapped to lists. -/
theorem c10_counterexample :
    strLeavesDict [("a", OVal.list [OVal.tuple [OVal.str "x"]])] = true ∧
    obj_2_dict (dict_2_obj [("a", OVal.list [OVal.tuple [OVal.str "x"]])]) ≠
      tuplesToListsD [("a", OVal.list [OVal.tuple [OVal.str "x"]])] := by
  refine ⟨by simp [strLeavesDict, strLeaves, strLeavesList], ?_⟩
  intro h
  have h1 : obj_2_dict (dict_2_obj
      [("a", OVal.list [OVal.tuple [OVal.str "x"]])]) =
      [("a", OVal.list [OVal.tuple [OVal.str "x"]])] := by
    simp [obj_2_dict, dict_2_obj, objInit, objAttr, objElems, objElem,
      obj2dictAttrs, obj2dictElems]
  have h2 : tuplesToListsD [("a", OVal.list [OVal.tuple [OVal.str "x"]])] =
      [("a", OVal.list [OVal.list [OVal.str "x"]])] := by
    simp [tuplesToListsD, tuplesToLists, tuplesToListsL]
  rw [h1, h2] at h
  injection h with hp ht
  injection hp with ha hv
  injection hv with hl
  injection hl with hx hxs
  exact OVal.noConfusion hx

/-- C10 corrected: on a dict whose leaf values are all strings, the
round trip `obj_2_dict(dict_2_obj(d))` equals `normDict d`: the dict
with every tuple occurring as a DIRECT value of a dict converted to a
list (recursively through dicts, and through dicts occurring as direct
elements of dict-value lists/tuples), while tuples nested as elements
of lists or tuples are preserved as tuples; and every key of any
key-distinct dict whose value is a non-string scalar (int, float,
bool, None) is absent from the round trip. -/
theorem c10_roundtrip :
    (∀ d : List (String × OVal), strLeavesDict d = true →
      obj_2_dict (dict_2_obj d) = normDict d) ∧
    (∀ (d : List (String × OVal)) (a : String) (v : OVal),
      (d.map Prod.fst).Nodup → (a, v) ∈ d → nonStringScalar v = true →
      ∀ w, (a, w) ∉ obj_2_dict (dict_2_obj d)) :=
  ⟨fun d h => roundtrip_dict d h,
   fun d a v h1 h2 h3 w => scalar_key_dropped d a v h1 h2 h3 w⟩

/-- Witness for C10 on concrete dicts: a direct tuple value becomes a
list, and an int-valued key disappears. -/
theorem c10_witness :
    obj_2_dict (dict_2_obj
        [("a", OVal.tuple [OVal.str "x"]), ("b", OVal.str "y")]) =
      normDict [("a", OVal.tuple [OVal.str "x"]), ("b", OVal.str "y")] ∧
    ∀ w, ("k", w) ∉ obj_2_dict (dict_2_obj [("k", OVal.intV 5)]) :=
  ⟨c10_roundtrip.1 [("a", OVal.tuple [OVal.str "x"]), ("b", OVal.str "y")]
      (by simp [strLeavesDict, strLeaves, strLeavesList]),
   fun w => c10_roundtrip.2 [("k", OVal.intV 5)] "k" (OVal.intV 5)
      (by simp) (by simp) (by simp [nonStringScalar]) w⟩

end FeishuApi
